import Mathlib

/-!
Verification of the Streamlit RAG chat UI (`Stream_lit/streamlit_app.py`).

The visible source is a single script: a "Process Document" sidebar handler
(temp-file creation, collection clearing via `delete(where={"page": {"$gte": 0}})`,
text extraction, chunk `add`) and a chat-input handler (history management,
`get_conversational_answer`, the `_store_in_long_term_memory` guard, rendering).

The backend module (`test_core_core`) is not part of the repository, so backend
behaviour reaching into the claims (the memory writer, the vector-store
delete/add semantics) is modelled from the specification where needed; the
handlers themselves are embedded directly from the script.  External effects
(collection operations, user-visible messages, backend calls) are recorded in
an event trace so that ordering and occurrence properties can be stated.
-/

/-- A conversation turn as stored in `st.session_state.history`:
a dict `{"role": ..., "parts": ...}`. -/
structure Turn where
  role : String
  parts : String
deriving DecidableEq

/-- One entry of a Chroma collection: an id, a document text, and the
`page` metadata field, which may be absent (`none`). -/
structure Entry where
  id : String
  document : String
  page : Option Int
deriving DecidableEq

/-- Whether an entry matches the filter `where={"page": {"$gte": 0}}`:
the `page` metadata field exists and is `≥ 0`.  An entry with a missing
`page` field does not match. -/
def matchesPageGte0 (e : Entry) : Bool :=
  match e.page with
  | some p => decide (0 ≤ p)
  | none => false

/-- `collection.delete(where={"page": {"$gte": 0}})`: removes exactly the
entries matching the filter (spec §4.2: `clear(predicate)` deletes all
entries matching the predicate). -/
def deletePageGte0 (c : List Entry) : List Entry :=
  c.filter (fun e => ! matchesPageGte0 e)

/-- Combine parallel id/document/metadata lists into collection entries,
as `collection.add(documents=..., metadatas=..., ids=...)` does. -/
def zipEntries : List String → List String → List (Option Int) → List Entry
  | i :: is, d :: ds, m :: ms => ⟨i, d, m⟩ :: zipEntries is ds ms
  | _, _, _ => []

/-- Decimal rendering of a natural number, modelling Python `str(i)` for the
nonnegative chunk indices interpolated in the f-string. -/
def natDecimal (n : Nat) : String :=
  if n = 0 then "0" else ⟨((Nat.digits 10 n).reverse.map Nat.digitChar)⟩

/-- `ids_to_add = [f"{uploaded_file.name}_chunk_{i}" for i in range(len(chunks))]`. -/
def mkIds (fileName : String) (n : Nat) : List String :=
  (List.range n).map (fun i => fileName ++ "_chunk_" ++ natDecimal i)

/-- `st.error` message of the empty-extraction branch. -/
def noTextMsg : String :=
  "File processed, but no text was extracted. Please try another file."

/-- Leading text of the `st.error` message of the exception branch of the
"Process Document" handler: `f"An error occurred during processing: {e}"`. -/
def procErrHead : String :=
  "An error occurred during processing: "

/-- Leading text of the degraded answer built in the chat handler's
`except` branch: `f"Error generating response: {e}"`. -/
def errGenHead : String :=
  "Error generating response: "

/-- Externally visible actions performed by the two handlers, in order. -/
inductive Event where
  | deleteDoc : Event
  | deleteChat : Event
  | addDoc : List String → Event
  | errorMsg : String → Event
  | successMsg : String → Nat → Event
  | warnMsg : Event
  | callBackend : List Turn → String → Event
  | callStore : String → String → Event
  | render : String → List Int → Event
deriving DecidableEq

/-- A chunk produced by `extract_text`: a dict with `content` and
`page_number` keys. -/
structure Chunk where
  content : String
  page_number : Int
deriving DecidableEq

/-- Outcome of the call `extract_text(filepath)`: a chunk list, or a raised
exception carrying a message. -/
inductive ExtractResult where
  | ok : List Chunk → ExtractResult
  | raises : String → ExtractResult
deriving DecidableEq

/-- Outcome of `get_conversational_answer(prompt, history_for_llm)` together
with the behaviour of the subsequent `_store_in_long_term_memory` call:
`returns answer sources store` where `store = some e` means the memory write
raises `e` if attempted (`none`: it succeeds); or `raises e`. -/
inductive QueryOutcome where
  | raises : String → QueryOutcome
  | returns : String → List Int → Option String → QueryOutcome
deriving DecidableEq

/-- The script's mutable state: the two Chroma collections, the Streamlit
session state (`history`, `file_processed`, `file_name`), and the set of
temp-file paths currently existing on disk. -/
structure AppState where
  doc_collection : List Entry
  chat_collection : List Entry
  history : List Turn
  file_processed : Bool
  file_name : String
  tempFiles : List String
deriving DecidableEq

/-- The `finally` block: `if os.path.exists(filepath): os.remove(filepath)`. -/
def removeIfExists (fs : List String) (p : String) : List String :=
  if fs.contains p then fs.filter (fun q => q != p) else fs

/-- The "Process Document" sidebar handler.  `tmpPath` is the fresh name
handed out by `NamedTemporaryFile(delete=False)`; `dDoc`/`dChat`/`addR` are
`some e` when the corresponding collection call raises `e` (`none` when it
succeeds); `ex` is the outcome of `extract_text`.  Returns the new state and
the trace of visible events. -/
def processDocument (st : AppState) (fileName tmpPath : String)
    (dDoc dChat : Option String) (ex : ExtractResult) (addR : Option String) :
    AppState × List Event :=
  let stT : AppState := { st with tempFiles := tmpPath :: st.tempFiles }
  let body : AppState × List Event :=
    match dDoc with
    | some e => (stT, [.errorMsg (procErrHead ++ e)])
    | none =>
      let stA : AppState := { stT with doc_collection := deletePageGte0 stT.doc_collection }
      match dChat with
      | some e => (stA, [.deleteDoc, .errorMsg (procErrHead ++ e)])
      | none =>
        let stB : AppState :=
          { stA with chat_collection := deletePageGte0 stA.chat_collection, history := [] }
        match ex with
        | .raises e => (stB, [.deleteDoc, .deleteChat, .errorMsg (procErrHead ++ e)])
        | .ok chunks =>
          if chunks.isEmpty then
            (stB, [.deleteDoc, .deleteChat, .errorMsg noTextMsg])
          else
            match addR with
            | some e => (stB, [.deleteDoc, .deleteChat, .errorMsg (procErrHead ++ e)])
            | none =>
              let documents_to_add := chunks.map (fun c => c.content)
              let metadatas_to_add := chunks.map (fun c => some c.page_number)
              let ids_to_add := mkIds fileName chunks.length
              let stC : AppState :=
                { stB with
                  doc_collection :=
                    stB.doc_collection ++ zipEntries ids_to_add documents_to_add metadatas_to_add,
                  file_processed := true,
                  file_name := fileName }
              (stC, [.deleteDoc, .deleteChat, .addDoc ids_to_add,
                     .successMsg fileName chunks.length])
  ({ body.1 with tempFiles := removeIfExists body.1.tempFiles tmpPath }, body.2)

/-- Modelled from the spec: `_store_in_long_term_memory(question, answer)` is
defined in the backend module `test_core_core`, which is absent from the
repository.  Per spec §4.5 and §3 it appends to the memory collection a new
entry with a fresh unique id, a document derived from question and answer,
and a `page` metadata field that is a sentinel or absent (`memPage`). -/
def storeMemory (c : List Entry) (question answer : String)
    (freshId : String) (memPage : Option Int) : List Entry :=
  c ++ [⟨freshId, question ++ " " ++ answer, memPage⟩]

/-- Python `answer.startswith(pre)`: `pre` is a character-prefix of the
string. -/
def strStartsWith (s pre : String) : Bool :=
  pre.data.isPrefixOf s.data

/-- The chat-input handler.  `memPage` and `memId` parametrise the
spec-modelled memory write (sentinel-or-absent page metadata, fresh id). -/
def chatStep (st : AppState) (prompt : String) (q : QueryOutcome)
    (memPage : Option Int) (memId : String) : AppState × List Event :=
  if st.file_processed = false then
    (st, [.warnMsg])
  else
    let h1 := st.history ++ [⟨"user", prompt⟩]
    let stU : AppState := { st with history := h1 }
    let history_for_llm := h1.dropLast
    let afterTry : AppState × String × List Int × List Event :=
      match q with
      | .raises e =>
        (stU, errGenHead ++ e, [], [.callBackend history_for_llm prompt])
      | .returns a s store =>
        if strStartsWith a "Error" then
          (stU, a, s, [.callBackend history_for_llm prompt])
        else
          match store with
          | none =>
            ({ stU with chat_collection := storeMemory stU.chat_collection prompt a memId memPage },
             a, s, [.callBackend history_for_llm prompt, .callStore prompt a])
          | some e =>
            (stU, errGenHead ++ e, [], [.callBackend history_for_llm prompt, .callStore prompt a])
    let stQ := afterTry.1
    let answer := afterTry.2.1
    let sources := afterTry.2.2.1
    let evQ := afterTry.2.2.2
    ({ stQ with history := stQ.history ++ [⟨"model", answer⟩] },
     evQ ++ [.render answer sources])

/-- One user interaction: either a "Process Document" click (with the run's
parameters) or a submitted chat prompt. -/
inductive Step where
  | process : String → String → Option String → Option String →
      ExtractResult → Option String → Step
  | chat : String → QueryOutcome → Option Int → String → Step
deriving DecidableEq

/-- Dispatch one interaction to its handler. -/
def stepRun (st : AppState) : Step → AppState × List Event
  | .process f tmp dDoc dChat ex addR => processDocument st f tmp dDoc dChat ex addR
  | .chat p q memPage memId => chatStep st p q memPage memId

/-- Run a sequence of interactions, accumulating the event trace. -/
def run (st : AppState) : List Step → AppState × List Event
  | [] => (st, [])
  | s :: rest =>
    let r1 := stepRun st s
    let r2 := run r1.1 rest
    (r2.1, r1.2 ++ r2.2)

/-- Session start: `history = []`, `file_processed = False`, `file_name = ""`;
the persistent collections may hold anything from earlier processes. -/
def initState (docC chatC : List Entry) : AppState :=
  ⟨docC, chatC, [], false, "", []⟩

/-- Scans an event trace with flags recording whether the document-collection
and chat-collection deletes have already happened; an `addDoc` is only
accepted once both flags are set. -/
def clearedBeforeAdd : List Event → Bool → Bool → Bool
  | [], _, _ => true
  | .deleteDoc :: rest, _, d2 => clearedBeforeAdd rest true d2
  | .deleteChat :: rest, d1, _ => clearedBeforeAdd rest d1 true
  | .addDoc _ :: rest, d1, d2 => d1 && d2 && clearedBeforeAdd rest d1 d2
  | _ :: rest, d1, d2 => clearedBeforeAdd rest d1 d2

/-- A history consisting of consecutive user/model pairs. -/
def paired : List Turn → Bool
  | [] => true
  | u :: m :: rest => u.role == "user" && m.role == "model" && paired rest
  | _ :: [] => false

theorem digitChar_injOn : ∀ a < 10, ∀ b < 10, Nat.digitChar a = Nat.digitChar b → a = b := by
  decide

theorem map_digitChar_inj : ∀ (l1 l2 : List Nat), (∀ x ∈ l1, x < 10) → (∀ x ∈ l2, x < 10) →
    l1.map Nat.digitChar = l2.map Nat.digitChar → l1 = l2
  | [], [], _, _, _ => rfl
  | [], _ :: _, _, _, h => by simp at h
  | _ :: _, [], _, _, h => by simp at h
  | x :: xs, y :: ys, hx, hy, h => by
    simp only [List.map_cons, List.cons.injEq] at h
    have hxy : x = y :=
      digitChar_injOn x (hx x (by simp)) y (hy y (by simp)) h.1
    have htl : xs = ys :=
      map_digitChar_inj xs ys (fun z hz => hx z (by simp [hz])) (fun z hz => hy z (by simp [hz])) h.2
    rw [hxy, htl]

theorem natDecimal_data (n : Nat) (hn : n ≠ 0) :
    (natDecimal n).data = (Nat.digits 10 n).reverse.map Nat.digitChar := by
  simp [natDecimal, hn]

theorem natDecimal_injective : Function.Injective natDecimal := by
  intro m n h
  by_cases hm : m = 0 <;> by_cases hn : n = 0
  · rw [hm, hn]
  · exfalso
    have hd : (natDecimal m).data = (natDecimal n).data := by rw [h]
    rw [hm] at hd
    have hz : (natDecimal 0).data = ['0'] := rfl
    rw [hz, natDecimal_data n hn] at hd
    have hdig : Nat.digits 10 n = [0] := by
      have : (Nat.digits 10 n).reverse = [0] := by
        refine map_digitChar_inj _ [0] ?_ (by decide) hd.symm
        intro x hx
        exact Nat.digits_lt_base (by norm_num) (List.mem_reverse.mp hx)
      have := congrArg List.reverse this
      simpa using this
    have := Nat.ofDigits_digits 10 n
    rw [hdig] at this
    simp [Nat.ofDigits] at this
    exact hn this.symm
  · exfalso
    have hd : (natDecimal n).data = (natDecimal m).data := by rw [h]
    rw [hn] at hd
    have hz : (natDecimal 0).data = ['0'] := rfl
    rw [hz, natDecimal_data m hm] at hd
    have hdig : Nat.digits 10 m = [0] := by
      have : (Nat.digits 10 m).reverse = [0] := by
        refine map_digitChar_inj _ [0] ?_ (by decide) hd.symm
        intro x hx
        exact Nat.digits_lt_base (by norm_num) (List.mem_reverse.mp hx)
      have := congrArg List.reverse this
      simpa using this
    have := Nat.ofDigits_digits 10 m
    rw [hdig] at this
    simp [Nat.ofDigits] at this
    exact hm this.symm
  · have hd : (natDecimal m).data = (natDecimal n).data := by rw [h]
    rw [natDecimal_data m hm, natDecimal_data n hn] at hd
    have hrev : (Nat.digits 10 m).reverse = (Nat.digits 10 n).reverse := by
      refine map_digitChar_inj _ _ ?_ ?_ hd
      · intro x hx
        exact Nat.digits_lt_base (by norm_num) (List.mem_reverse.mp hx)
      · intro x hx
        exact Nat.digits_lt_base (by norm_num) (List.mem_reverse.mp hx)
    have hdig : Nat.digits 10 m = Nat.digits 10 n := List.reverse_injective hrev
    have h1 := Nat.ofDigits_digits 10 m
    have h2 := Nat.ofDigits_digits 10 n
    rw [← h1, ← h2, hdig]

theorem chunkId_injective (f : String) :
    Function.Injective (fun i => f ++ "_chunk_" ++ natDecimal i) := by
  intro i j h
  have hd := congrArg String.data h
  simp only [String.data_append] at hd
  have h1 := List.append_cancel_left hd
  exact natDecimal_injective (String.ext h1)

theorem mkIds_nodup (f : String) (n : Nat) : (mkIds f n).Nodup :=
  (List.nodup_range n).map (chunkId_injective f)

theorem mkIds_ne_nil (f : String) (n : Nat) (hn : n ≠ 0) : mkIds f n ≠ [] := by
  intro h
  have := congrArg List.length h
  simp [mkIds] at this
  exact hn this

theorem noTextMsg_ne_procErr (e : String) : noTextMsg ≠ procErrHead ++ e := by
  intro h
  have hd := congrArg String.data h
  have h1 : procErrHead.data = 'A' :: "n error occurred during processing: ".data := rfl
  rw [String.data_append, h1, List.cons_append] at hd
  have h2 : noTextMsg.data.head? = some 'A' := by rw [hd]; rfl
  have h3 : noTextMsg.data.head? = some 'F' := rfl
  rw [h3] at h2
  simp at h2

theorem errGen_take5 (e : String) : ((errGenHead ++ e).data.take 5) = "Error".data := by
  have h1 : errGenHead.data =
      'E' :: 'r' :: 'r' :: 'o' :: 'r' :: " generating response: ".data := rfl
  rw [String.data_append, h1]
  rfl

theorem paired_append_pair (u m : Turn) (hu : u.role = "user") (hm : m.role = "model") :
    ∀ h : List Turn, paired h = true → paired (h ++ [u, m]) = true
  | [], _ => by simp [paired, hu, hm]
  | [x], hx => by simp [paired] at hx
  | x :: y :: rest, hxy => by
    simp only [paired, Bool.and_eq_true, beq_iff_eq] at hxy
    simp only [List.cons_append, paired, Bool.and_eq_true, beq_iff_eq]
    exact ⟨hxy.1, paired_append_pair u m hu hm rest hxy.2⟩

theorem chatStep_file_processed (st : AppState) (p : String) (q : QueryOutcome)
    (mp : Option Int) (mid : String) :
    (chatStep st p q mp mid).1.file_processed = st.file_processed := by
  unfold chatStep
  split
  · rfl
  · rcases q with e | ⟨a, s, store⟩
    · rfl
    · by_cases ha : strStartsWith a "Error" <;> rcases store with _ | e <;> simp [ha]

theorem chatStep_history_of_not_processed (st : AppState) (p : String) (q : QueryOutcome)
    (mp : Option Int) (mid : String) (h : st.file_processed = false) :
    chatStep st p q mp mid = (st, [.warnMsg]) := by
  unfold chatStep
  simp [h]

theorem processDocument_fp_or_add (st : AppState) (f tmp : String)
    (dDoc dChat : Option String) (ex : ExtractResult) (addR : Option String) :
    (processDocument st f tmp dDoc dChat ex addR).1.file_processed = st.file_processed ∨
    ∃ ids, ids ≠ [] ∧ Event.addDoc ids ∈ (processDocument st f tmp dDoc dChat ex addR).2 := by
  unfold processDocument
  rcases dDoc with _ | e
  · rcases dChat with _ | e
    · rcases ex with chunks | e
      · rcases chunks with _ | ⟨c, cs⟩
        · left; rfl
        · rcases addR with _ | e
          · right
            refine ⟨mkIds f (c :: cs).length, mkIds_ne_nil f _ (by simp), ?_⟩
            simp [List.isEmpty]
          · left; rfl
      · left; rfl
    · left; rfl
  · left; rfl

theorem run_fp_or_add (steps : List Step) : ∀ st : AppState,
    (run st steps).1.file_processed = true →
    st.file_processed = true ∨
    ∃ ids, ids ≠ [] ∧ Event.addDoc ids ∈ (run st steps).2 := by
  induction steps with
  | nil => intro st h; exact Or.inl h
  | cons s rest ih =>
    intro st h
    have h2 := ih (stepRun st s).1 h
    rcases h2 with h2 | ⟨ids, hne, hmem⟩
    · rcases s with ⟨f, tmp, dDoc, dChat, ex, addR⟩ | ⟨p, q, mp, mid⟩
      · rcases processDocument_fp_or_add st f tmp dDoc dChat ex addR with hfp | ⟨ids, hne, hmem⟩
        · left
          rw [← hfp]
          exact h2
        · right
          exact ⟨ids, hne, by simp [run, stepRun]; exact Or.inl hmem⟩
      · left
        rw [← chatStep_file_processed st p q mp mid]
        exact h2
    · right
      exact ⟨ids, hne, by simp [run]; exact Or.inr hmem⟩

theorem chatStep_paired (st : AppState) (p : String) (q : QueryOutcome)
    (mp : Option Int) (mid : String) (h : paired st.history = true) :
    paired (chatStep st p q mp mid).1.history = true := by
  unfold chatStep
  split
  · exact h
  · have key : ∀ ans : String,
        paired (st.history ++ [⟨"user", p⟩, ⟨"model", ans⟩]) = true := fun ans =>
      paired_append_pair ⟨"user", p⟩ ⟨"model", ans⟩ rfl rfl st.history h
    rcases q with e | ⟨a, s, store⟩
    · simpa using key (errGenHead ++ e)
    · by_cases ha : strStartsWith a "Error" <;> rcases store with _ | e <;> simp [ha] <;> exact key _

theorem processDocument_paired (st : AppState) (f tmp : String)
    (dDoc dChat : Option String) (ex : ExtractResult) (addR : Option String)
    (h : paired st.history = true) :
    paired (processDocument st f tmp dDoc dChat ex addR).1.history = true := by
  unfold processDocument
  rcases dDoc with _ | e
  · rcases dChat with _ | e
    · rcases ex with chunks | e
      · rcases chunks with _ | ⟨c, cs⟩
        · exact rfl
        · rcases addR with _ | e
          · simp [List.isEmpty]; rfl
          · exact rfl
      · exact rfl
    · exact h
  · exact h

theorem run_paired (steps : List Step) : ∀ st : AppState,
    paired st.history = true → paired (run st steps).1.history = true := by
  induction steps with
  | nil => intro st h; exact h
  | cons s rest ih =>
    intro st h
    refine ih (stepRun st s).1 ?_
    rcases s with ⟨f, tmp, dDoc, dChat, ex, addR⟩ | ⟨p, q, mp, mid⟩
    · exact processDocument_paired st f tmp dDoc dChat ex addR h
    · exact chatStep_paired st p q mp mid h

theorem removeIfExists_fresh (fs : List String) (p : String) (h : p ∉ fs) :
    removeIfExists (p :: fs) p = fs := by
  unfold removeIfExists
  have hc : (p :: fs).contains p = true := by simp
  rw [if_pos hc]
  simp only [List.filter_cons]
  have hp : (p != p) = false := by simp
  rw [hp]
  simp only [Bool.false_eq_true, if_false]
  refine List.filter_eq_self.mpr ?_
  intro a ha
  simp only [bne_iff_ne, ne_eq]
  intro hap
  exact h (hap ▸ ha)

theorem processDocument_tempFiles (st : AppState) (f tmp : String)
    (dDoc dChat : Option String) (ex : ExtractResult) (addR : Option String)
    (h : tmp ∉ st.tempFiles) :
    (processDocument st f tmp dDoc dChat ex addR).1.tempFiles = st.tempFiles := by
  unfold processDocument
  rcases dDoc with _ | e
  · rcases dChat with _ | e
    · rcases ex with chunks | e
      · rcases chunks with _ | ⟨c, cs⟩
        · exact removeIfExists_fresh st.tempFiles tmp h
        · rcases addR with _ | e
          · exact removeIfExists_fresh st.tempFiles tmp h
          · exact removeIfExists_fresh st.tempFiles tmp h
      · exact removeIfExists_fresh st.tempFiles tmp h
    · exact removeIfExists_fresh st.tempFiles tmp h
  · exact removeIfExists_fresh st.tempFiles tmp h

/-- C5: In every ingestion run — whatever the outcomes of the deletes, the
extraction and the add — the delete on the document collection and the delete
on the chat-memory collection are executed strictly before any add to the
document collection: the event trace never accepts an `addDoc` before both
delete events have occurred. -/
theorem c5_deletes_before_add (st : AppState) (f tmp : String)
    (dDoc dChat : Option String) (ex : ExtractResult) (addR : Option String) :
    clearedBeforeAdd (processDocument st f tmp dDoc dChat ex addR).2 false false = true := by
  unfold processDocument
  rcases dDoc with _ | e
  · rcases dChat with _ | e
    · rcases ex with chunks | e
      · rcases chunks with _ | ⟨c, cs⟩
        · rfl
        · rcases addR with _ | e <;> rfl
      · rfl
    · rfl
  · rfl

/-- C6: for every ingestion of a file named `f` producing `n` chunks, the ids
passed to `doc_collection.add` are exactly `f ++ "_chunk_" ++ i` for
`i = 0 .. n-1`, in chunk order, and these `n` ids are pairwise distinct. -/
theorem c6_chunk_ids (st : AppState) (f tmp : String) (chunks : List Chunk)
    (h : chunks ≠ []) :
    Event.addDoc ((List.range chunks.length).map (fun i => f ++ "_chunk_" ++ natDecimal i))
      ∈ (processDocument st f tmp none none (.ok chunks) none).2 ∧
    ((List.range chunks.length).map (fun i => f ++ "_chunk_" ++ natDecimal i)).Nodup := by
  constructor
  · rcases chunks with _ | ⟨c, cs⟩
    · exact absurd rfl h
    · simp [processDocument, mkIds]
  · exact mkIds_nodup f chunks.length

/-- C6 witness: a concrete one-chunk ingestion of "notes.pdf". -/
theorem c6_chunk_ids_witness :
    Event.addDoc ((List.range ([(⟨"alpha", 1⟩ : Chunk)].length)).map
        (fun i => "notes.pdf" ++ "_chunk_" ++ natDecimal i))
      ∈ (processDocument (initState [] []) "notes.pdf" "/tmp/t0" none none
          (.ok [⟨"alpha", 1⟩]) none).2 ∧
    ((List.range ([(⟨"alpha", 1⟩ : Chunk)].length)).map
        (fun i => "notes.pdf" ++ "_chunk_" ++ natDecimal i)).Nodup :=
  c6_chunk_ids (initState [] []) "notes.pdf" "/tmp/t0" [⟨"alpha", 1⟩] (by simp)

/-- C7: when `extract_text` returns an empty chunk list, the handler reports
the dedicated no-text-extracted message, performs no add to the document
collection, does not set `file_processed` or `file_name`, reports no success,
and emits no exception-branch message — the path is distinct from the
failure path. -/
theorem c7_empty_extraction (st : AppState) (f tmp : String) (addR : Option String) :
    (processDocument st f tmp none none (.ok []) addR).1.file_processed = st.file_processed ∧
    (processDocument st f tmp none none (.ok []) addR).1.file_name = st.file_name ∧
    (∀ ids, Event.addDoc ids ∉ (processDocument st f tmp none none (.ok []) addR).2) ∧
    Event.errorMsg noTextMsg ∈ (processDocument st f tmp none none (.ok []) addR).2 ∧
    (∀ s n, Event.successMsg s n ∉ (processDocument st f tmp none none (.ok []) addR).2) ∧
    (∀ e, Event.errorMsg (procErrHead ++ e) ∉
      (processDocument st f tmp none none (.ok []) addR).2) := by
  refine ⟨rfl, rfl, ?_, ?_, ?_, ?_⟩
  · intro ids hmem
    simp [processDocument] at hmem
  · simp [processDocument]
  · intro s n hmem
    simp [processDocument] at hmem
  · intro e hmem
    simp [processDocument] at hmem
    exact noTextMsg_ne_procErr e hmem.symm

/-- C10: the temporary file created for the uploaded bytes is removed by the
`finally` block in every ingestion run — success, empty extraction, or raised
exception — so no temporary file persists after the handler finishes. -/
theorem c10_temp_file_removed (st : AppState) (f tmp : String)
    (dDoc dChat : Option String) (ex : ExtractResult) (addR : Option String)
    (h : tmp ∉ st.tempFiles) :
    (processDocument st f tmp dDoc dChat ex addR).1.tempFiles = st.tempFiles ∧
    tmp ∉ (processDocument st f tmp dDoc dChat ex addR).1.tempFiles := by
  have hf := processDocument_tempFiles st f tmp dDoc dChat ex addR h
  exact ⟨hf, hf ▸ h⟩

/-- C10 witness: a concrete run of each parameter shape is not needed; one
concrete exception-branch run suffices to discharge the freshness hypothesis. -/
theorem c10_temp_file_removed_witness :
    (processDocument (initState [] []) "a.pdf" "/tmp/t0" none none
        (.raises "boom") none).1.tempFiles = (initState [] []).tempFiles ∧
    "/tmp/t0" ∉ (processDocument (initState [] []) "a.pdf" "/tmp/t0" none none
        (.raises "boom") none).1.tempFiles :=
  c10_temp_file_removed (initState [] []) "a.pdf" "/tmp/t0" none none
    (.raises "boom") none (by simp [initState])

/-- C3: if `get_conversational_answer` raises, the chat handler catches the
exception: the degraded answer is the error-format text (beginning with
"Error"), it is rendered with an empty sources list, and the model turn is
still appended to the session history. -/
theorem c3_exception_degraded (st : AppState) (p e : String)
    (mp : Option Int) (mid : String) (h : st.file_processed = true) :
    (chatStep st p (.raises e) mp mid).1.history
      = st.history ++ [⟨"user", p⟩, ⟨"model", errGenHead ++ e⟩] ∧
    Event.render (errGenHead ++ e) [] ∈ (chatStep st p (.raises e) mp mid).2 ∧
    ((errGenHead ++ e).data.take 5 = "Error".data) := by
  refine ⟨?_, ?_, errGen_take5 e⟩
  · simp [chatStep, h]
  · simp [chatStep, h]

/-- C3 witness: a concrete raised exception on a processed-file state. -/
theorem c3_exception_degraded_witness :
    (chatStep ⟨[], [], [], true, "doc.pdf", []⟩ "What is X?" (.raises "timeout")
        none "mem_1").1.history
      = ([] : List Turn) ++ [⟨"user", "What is X?"⟩, ⟨"model", errGenHead ++ "timeout"⟩] ∧
    Event.render (errGenHead ++ "timeout") []
      ∈ (chatStep ⟨[], [], [], true, "doc.pdf", []⟩ "What is X?" (.raises "timeout")
          none "mem_1").2 ∧
    ((errGenHead ++ "timeout").data.take 5 = "Error".data) :=
  c3_exception_degraded ⟨[], [], [], true, "doc.pdf", []⟩ "What is X?" "timeout"
    none "mem_1" rfl

/-- C4: for an answered question (a returned result), the memory write
`_store_in_long_term_memory(prompt, answer)` is called if and only if the
answer string does not start with "Error". -/
theorem c4_store_guard (st : AppState) (p a : String) (s : List Int)
    (store : Option String) (mp : Option Int) (mid : String)
    (h : st.file_processed = true) :
    Event.callStore p a ∈ (chatStep st p (.returns a s store) mp mid).2
      ↔ strStartsWith a "Error" = false := by
  by_cases ha : strStartsWith a "Error" <;> rcases store with _ | e <;> simp [chatStep, h, ha]

/-- C4 witness: a concrete error-prefixed answer produces no store call and a
concrete ordinary answer produces one. -/
theorem c4_store_guard_witness :
    (Event.callStore "Q?" "Error: model unavailable"
        ∈ (chatStep ⟨[], [], [], true, "doc.pdf", []⟩ "Q?"
            (.returns "Error: model unavailable" [] none) none "mem_1").2
      ↔ strStartsWith "Error: model unavailable" "Error" = false) :=
  c4_store_guard ⟨[], [], [], true, "doc.pdf", []⟩ "Q?" "Error: model unavailable"
    [] none none "mem_1" rfl

/-- C9: on a processed-file state, a submitted prompt appends exactly one
"user" turn followed by exactly one "model" turn (also when the backend
raised), the backend receives the history preceding the just-appended prompt,
and every reachable session history is a sequence of user/model pairs. -/
theorem c9_history_pairs (st : AppState) (p : String) (q : QueryOutcome)
    (mp : Option Int) (mid : String) (docC chatC : List Entry) (steps : List Step)
    (h : st.file_processed = true) :
    (∃ ans, (chatStep st p q mp mid).1.history
        = st.history ++ [⟨"user", p⟩, ⟨"model", ans⟩] ∧
      Event.callBackend st.history p ∈ (chatStep st p q mp mid).2) ∧
    paired (run (initState docC chatC) steps).1.history = true := by
  constructor
  · rcases q with e | ⟨a, s, store⟩
    · exact ⟨errGenHead ++ e, by simp [chatStep, h], by simp [chatStep, h]⟩
    · by_cases ha : strStartsWith a "Error"
      · exact ⟨a, by simp [chatStep, h, ha], by simp [chatStep, h, ha]⟩
      · rcases store with _ | e
        · exact ⟨a, by simp [chatStep, h, ha], by simp [chatStep, h, ha]⟩
        · exact ⟨errGenHead ++ e, by simp [chatStep, h, ha], by simp [chatStep, h, ha]⟩
  · exact run_paired steps (initState docC chatC) rfl

/-- C9 witness: a concrete prompt on a processed-file state. -/
theorem c9_history_pairs_witness :
    (∃ ans, (chatStep ⟨[], [], [], true, "doc.pdf", []⟩ "Q?" (.raises "x")
        none "mem_1").1.history
        = ([] : List Turn) ++ [⟨"user", "Q?"⟩, ⟨"model", ans⟩] ∧
      Event.callBackend ([] : List Turn) "Q?"
        ∈ (chatStep ⟨[], [], [], true, "doc.pdf", []⟩ "Q?" (.raises "x")
            none "mem_1").2) ∧
    paired (run (initState [] []) []).1.history = true :=
  c9_history_pairs ⟨[], [], [], true, "doc.pdf", []⟩ "Q?" (.raises "x")
    none "mem_1" [] [] [] rfl

/-- C8: a prompt on an unprocessed state produces only a warning (no backend
call, no state change); and in any interaction sequence from session start,
`file_processed` is true only after some ingestion performed an `addDoc` with
a non-empty id (hence chunk) list. -/
theorem c8_processed_gate (st : AppState) (p : String) (q : QueryOutcome)
    (mp : Option Int) (mid : String) (docC chatC : List Entry) (steps : List Step) :
    (st.file_processed = false → chatStep st p q mp mid = (st, [Event.warnMsg])) ∧
    ((run (initState docC chatC) steps).1.file_processed = true →
      ∃ ids, ids ≠ [] ∧ Event.addDoc ids ∈ (run (initState docC chatC) steps).2) := by
  constructor
  · exact chatStep_history_of_not_processed st p q mp mid
  · intro h
    rcases run_fp_or_add steps (initState docC chatC) h with h2 | h2
    · exact absurd h2 Bool.false_ne_true
    · exact h2

/-- C8 witness: the gate fires on the start state, and one successful
ingestion yields the non-empty `addDoc`. -/
theorem c8_processed_gate_witness :
    (chatStep (initState [] []) "hi" (.raises "x") none "m"
      = (initState [] [], [Event.warnMsg])) ∧
    (∃ ids, ids ≠ [] ∧ Event.addDoc ids ∈
      (run (initState [] [])
        [Step.process "f.pdf" "/tmp/t0" none none (.ok [⟨"x", 1⟩]) none]).2) :=
  ⟨(c8_processed_gate (initState [] []) "hi" (.raises "x") none "m" [] []
      [Step.process "f.pdf" "/tmp/t0" none none (.ok [⟨"x", 1⟩]) none]).1 rfl,
   (c8_processed_gate (initState [] []) "hi" (.raises "x") none "m" [] []
      [Step.process "f.pdf" "/tmp/t0" none none (.ok [⟨"x", 1⟩]) none]).2 rfl⟩

/-- C2: the code violates the claim.  `_store_in_long_term_memory` is called
inside the same `try` block as `get_conversational_answer`, so a memory-write
failure after a successfully returned answer falls into the `except` branch:
the already-produced answer "The answer is 42." with sources `[2]` is
replaced by the error text with empty sources, and that error text — not the
successful answer — is rendered and recorded in the history. -/
theorem c2_store_failure_masks_answer :
    chatStep ⟨[], [], [], true, "doc.pdf", []⟩ "What is six times seven?"
        (.returns "The answer is 42." [2] (some "disk full")) none "mem_1"
      = (⟨[], [], [⟨"user", "What is six times seven?"⟩,
            ⟨"model", "Error generating response: disk full"⟩], true, "doc.pdf", []⟩,
         [Event.callBackend [] "What is six times seven?",
          Event.callStore "What is six times seven?" "The answer is 42.",
          Event.render "Error generating response: disk full" []]) := by
  decide

/-- C1 counterexample: ingest "a.pdf", answer one question (which writes a
memory entry whose `page` metadata is absent, as the spec allows), then
re-ingest "b.pdf".  The delete filter `page >= 0` does not match the memory
entry, so it survives the re-ingestion: the chat-memory collection still
contains an entry created during the prior question/answer session. -/
theorem c1_counterexample :
    (⟨"mem_1", "What is the capital? Paris.", none⟩ : Entry) ∈
      (run (initState [] [])
        [Step.process "a.pdf" "/tmp/t0" none none (.ok [⟨"alpha", 1⟩]) none,
         Step.chat "What is the capital?" (.returns "Paris." [1] none) none "mem_1",
         Step.process "b.pdf" "/tmp/t1" none none (.ok [⟨"beta", 1⟩]) none]).1.chat_collection := by
  decide

/-- C1 (amended): a re-ingestion removes from both collections exactly the
residual entries whose `page` metadata is present and `≥ 0`; an entry whose
`page` metadata is missing or negative — e.g. a memory entry with a sentinel
or absent page — survives the `page >= 0` delete on the chat-memory
collection, and the document collection afterwards consists of the surviving
old entries followed by the newly added chunk entries. -/
theorem c1_amended_residuals (st : AppState) (f tmp : String) (chunks : List Chunk)
    (h : chunks ≠ []) :
    (∀ e, e ∈ (processDocument st f tmp none none (.ok chunks) none).1.chat_collection
      ↔ (e ∈ st.chat_collection ∧ matchesPageGte0 e = false)) ∧
    (processDocument st f tmp none none (.ok chunks) none).1.doc_collection
      = deletePageGte0 st.doc_collection
        ++ zipEntries (mkIds f chunks.length) (chunks.map (fun c => c.content))
            (chunks.map (fun c => some c.page_number)) := by
  rcases chunks with _ | ⟨c, cs⟩
  · exact absurd rfl h
  · constructor
    · intro e
      simp [processDocument, deletePageGte0, List.mem_filter]
    · simp [processDocument]

/-- C1 (amended) witness: a memory entry with absent page metadata survives a
concrete re-ingestion. -/
theorem c1_amended_residuals_witness :
    ((⟨"mem_1", "q a", none⟩ : Entry) ∈
        (processDocument ⟨[⟨"a.pdf_chunk_0", "alpha", some 1⟩],
            [⟨"mem_1", "q a", none⟩], [], true, "a.pdf", []⟩
          "b.pdf" "/tmp/t1" none none (.ok [⟨"beta", 1⟩]) none).1.chat_collection
      ↔ ((⟨"mem_1", "q a", none⟩ : Entry) ∈ [(⟨"mem_1", "q a", none⟩ : Entry)] ∧
          matchesPageGte0 ⟨"mem_1", "q a", none⟩ = false)) :=
  (c1_amended_residuals ⟨[⟨"a.pdf_chunk_0", "alpha", some 1⟩],
      [⟨"mem_1", "q a", none⟩], [], true, "a.pdf", []⟩
    "b.pdf" "/tmp/t1" [⟨"beta", 1⟩] (by simp)).1 ⟨"mem_1", "q a", none⟩
